import Mathlib

/-!
Verification of the PowerGenome example-notebook pipeline
(src/generate_PGdata_example_notebook.ipynb).

The notebook orchestrates calls into the external powergenome library and
pandas.  We shallowly embed the notebook's own logic: pandas DataFrames are
modelled as a column list plus rows of (column, cell) association lists, a
cell being an Option Value with none standing for NaN/missing.  External
library functions (GeneratorClusters, reduce_time_domain, the transmission
helpers, ...) are uninterpreted parameters gathered in a structure.
Operations that can raise a Python exception return Option, none standing
for the raise.
-/

namespace PGNB

/-- Scalar values stored in DataFrame cells: strings and integers.  Floats
appear in the notebook data only as NaN (modelled by Option.none at the cell
level) or as integral year/cluster values, which we model as Int. -/
inductive Value where
  | vStr (s : String)
  | vInt (n : Int)
deriving DecidableEq

/-- A cell of a DataFrame: none models NaN / a missing entry. -/
abbrev Cell := Option Value

/-- A row: an association list from column names to cells. -/
abbrev Row := List (String × Cell)

/-- Reading a cell of a row.  A key absent from the association list reads as
NaN, which matches pandas concat alignment (missing columns become NaN). -/
def Row.get (r : Row) (c : String) : Cell :=
  match r.lookup c with
  | some v => v
  | none => none

/-- A DataFrame: ordered column names and a list of rows. -/
structure DF where
  cols : List String
  rows : List Row
deriving DecidableEq

/-- pd.DataFrame(): the empty frame. -/
def emptyDF : DF := ⟨[], []⟩

/-- Point update of one row: overwrite the entry for column c when present,
append it otherwise (pandas column assignment). -/
def updateRow (r : Row) (c : String) (v : Cell) : Row :=
  if (r.lookup c).isSome then
    r.map (fun p => if p.1 = c then (c, v) else p)
  else
    r ++ [(c, v)]

/-- df.loc[:, c] = f(row):  assign a whole column, appending the column name
when it is new.  Covers both scalar assignment (constant f) and the rowwise
tech-key construction. -/
def assignColFun (df : DF) (c : String) (f : Row → Cell) : DF :=
  ⟨if df.cols.contains c then df.cols else df.cols ++ [c],
   df.rows.map (fun r => updateRow r c (f r))⟩

/-- pd.concat([a, b]) with default axis/join: columns are the union in order
of first appearance, rows are stacked; a row reads NaN (none) in any column
it did not originally have, which Row.get already provides. -/
def pdConcat (a b : DF) : DF :=
  ⟨a.cols ++ b.cols.filter (fun c => ¬ a.cols.contains c), a.rows ++ b.rows⟩

/-- df[cs]: column selection.  Raises KeyError (none) when some requested
column is absent; otherwise produces a frame with exactly the columns cs,
rows re-normalised to those columns. -/
def dfSelect (df : DF) (cs : List String) : Option DF :=
  if cs.all (fun c => df.cols.contains c) then
    some ⟨cs, df.rows.map (fun r => cs.map (fun c => (c, r.get c)))⟩
  else
    none

/-- Python int(str): strip whitespace, optional sign, decimal digits.
(Numeric-literal niceties such as underscores are not modelled; no claim
depends on them.) -/
def pyStrToInt (s : String) : Option Int :=
  let t := s.trim
  let core := if t.startsWith "-" || t.startsWith "+" then t.drop 1 else t
  if core.length > 0 && core.all (fun ch => ch.isDigit) then
    let n : Nat := core.foldl (fun acc ch => acc * 10 + (ch.toNat - 48)) 0
    some (if t.startsWith "-" then -(n : Int) else (n : Int))
  else
    none

/-- Python int(cell), as applied elementwise by Series.map(int): NaN raises,
an integer is returned unchanged, a string is parsed or raises. -/
def cellToInt : Cell → Option Int
  | none => none
  | some (Value.vInt n) => some n
  | some (Value.vStr s) => pyStrToInt s

/-- Whether one row survives the RHS of
  all_gens.loc[:,'Resource'] + '-' + all_gens.loc[:,'region'] + '-'
      + all_gens.loc[:,'cluster'].map(int).map(str)
without raising.  pandas object-dtype + masks NaN positions (NaN + str is
NaN, not an error), but str + int raises TypeError, int + str raises
TypeError, and cluster.map(int) raises on any NaN or unparsable value. -/
def rowTechOk (r : Row) : Bool :=
  (match r.get "Resource", r.get "region" with
   | some (Value.vInt _), _ => false
   | some (Value.vStr _), some (Value.vInt _) => false
   | _, _ => true)
  && (cellToInt (r.get "cluster")).isSome

/-- The value of the composite key for one row when no exception occurs: the
NaN-masked concatenation Resource + '-' + region + '-' + str(int(cluster)).
Any NaN among Resource/region makes the whole key NaN. -/
def rowTechVal (r : Row) : Cell :=
  match r.get "Resource", r.get "region", cellToInt (r.get "cluster") with
  | some (Value.vStr a), some (Value.vStr b), some k =>
      some (Value.vStr (a ++ "-" ++ b ++ "-" ++ toString k))
  | _, _, _ => none

/-- Cell-7 line 1:
  all_gens.loc[:,'tech'] = all_gens.loc[:,'Resource'] + '-'
      + all_gens.loc[:,'region'] + '-'
      + all_gens.loc[:,'cluster'].map(int).map(str)
none models a raised exception (KeyError on a missing column, TypeError on a
non-string operand of +, ValueError/TypeError in cluster.map(int)); the
column ops are whole-column, so one bad row poisons the assignment and the
frame is left unchanged. -/
def addTech (df : DF) : Option DF :=
  if ("Resource" ∈ df.cols && "region" ∈ df.cols && "cluster" ∈ df.cols)
      && df.rows.all rowTechOk then
    some (assignColFun df "tech" rowTechVal)
  else
    none

/-- np.isnan accepts NaN and numbers; a string cell makes it raise. -/
def numericCell : Cell → Bool
  | none => true
  | some (Value.vInt _) => true
  | some (Value.vStr _) => false

/-- Cell-7 line 4:
  amy.loc[np.isnan(amy.operating_year), 'operating_year'] = all_periods[0]
Raises (none) when the column is missing (AttributeError) or holds a string
(np.isnan TypeError); otherwise replaces every NaN by the first period. -/
def fillNanOY (df : DF) (y : Int) : Option DF :=
  if "operating_year" ∈ df.cols
      && df.rows.all (fun r => numericCell (r.get "operating_year")) then
    some ⟨df.cols,
      df.rows.map (fun r =>
        if (r.get "operating_year").isNone then
          updateRow r "operating_year" (some (Value.vInt y))
        else r)⟩
  else
    none

/-- Python cell == 0: NaN == 0 and str == 0 are False, int compares. -/
def eqZeroCell : Cell → Bool
  | some (Value.vInt n) => n == 0
  | _ => false

/-- Cell-7 line 5:
  amy.loc[amy.operating_year == 0, 'operating_year'] = all_periods[0]
Raises only when the column is missing; the == comparison never raises. -/
def fillZeroOY (df : DF) (y : Int) : Option DF :=
  if "operating_year" ∈ df.cols then
    some ⟨df.cols,
      df.rows.map (fun r =>
        if eqZeroCell (r.get "operating_year") then
          updateRow r "operating_year" (some (Value.vInt y))
        else r)⟩
  else
    none

/-- Cell-7, the whole post-processing: build the tech key on all_gens,
concat with new_gen, restrict to all_gens' (post-key) columns, then fill NaN
and zero operating years with the first planning period. -/
def cell7 (all_gens new_gen : DF) (firstPeriod : Int) : Option DF := do
  let ag ← addTech all_gens
  let amy0 := pdConcat ag new_gen
  let amy1 ← dfSelect amy0 ag.cols
  let amy2 ← fillNanOY amy1 firstPeriod
  let amy3 ← fillZeroOY amy2 firstPeriod
  pure amy3

end PGNB

namespace PGNB

theorem lookup_map_set (r : Row) (c : String) (v : Cell)
    (h : (r.lookup c).isSome) :
    (r.map (fun p => if p.1 = c then (c, v) else p)).lookup c = some v := by
  induction r with
  | nil => simp at h
  | cons p t ih =>
    obtain ⟨pk, pv⟩ := p
    by_cases hp : pk = c
    · subst hp
      simp [List.lookup_cons]
    · have hb : (c == pk) = false := by
        simp only [beq_eq_false_iff_ne]
        exact fun hc => hp hc.symm
      simp only [List.lookup_cons, hb] at h
      simp only [List.map_cons, if_neg hp, List.lookup_cons, hb]
      exact ih h

theorem lookup_map_miss (r : Row) (c cq : String) (v : Cell) (hcc : cq ≠ c) :
    (r.map (fun p => if p.1 = c then (c, v) else p)).lookup cq = r.lookup cq := by
  induction r with
  | nil => simp
  | cons p t ih =>
    obtain ⟨pk, pv⟩ := p
    by_cases hp : pk = c
    · subst hp
      have hb : (cq == pk) = false := by simp [hcc]
      simp [List.lookup_cons, hb, ih]
    · simp only [List.map_cons, if_neg hp, List.lookup_cons]
      by_cases hq : (cq == pk) = true
      · simp [hq]
      · have hb : (cq == pk) = false := by
          cases hcb : (cq == pk) with
          | true => exact absurd hcb hq
          | false => rfl
        simp [hb, ih]

theorem lookup_append_one (r : Row) (c : String) (v : Cell)
    (h : r.lookup c = none) :
    (r ++ [(c, v)]).lookup c = some v := by
  induction r with
  | nil => simp [List.lookup_cons]
  | cons p t ih =>
    obtain ⟨pk, pv⟩ := p
    by_cases hp : (c == pk) = true
    · simp [List.lookup_cons, hp] at h
    · have hb : (c == pk) = false := by
        cases hcb : (c == pk) with
        | true => exact absurd hcb hp
        | false => rfl
      simp only [List.lookup_cons, hb] at h
      simp only [List.cons_append, List.lookup_cons, hb]
      exact ih h

theorem lookup_append_one_other (r : Row) (c cq : String) (v : Cell)
    (hcc : cq ≠ c) :
    (r ++ [(c, v)]).lookup cq = r.lookup cq := by
  induction r with
  | nil =>
    have hb : (cq == c) = false := by simp [hcc]
    simp [List.lookup_cons, hb]
  | cons p t ih =>
    obtain ⟨pk, pv⟩ := p
    by_cases hp : (cq == pk) = true
    · simp [List.cons_append, List.lookup_cons, hp]
    · have hb : (cq == pk) = false := by
        cases hcb : (cq == pk) with
        | true => exact absurd hcb hp
        | false => rfl
      simp [List.cons_append, List.lookup_cons, hb, ih]

/-- Updating a column and reading it back gives the new value. -/
theorem get_updateRow_self (r : Row) (c : String) (v : Cell) :
    (updateRow r c v).get c = v := by
  unfold updateRow Row.get
  by_cases h : (r.lookup c).isSome
  · simp [h, lookup_map_set r c v h]
  · have h0 : r.lookup c = none := by
      cases hval : r.lookup c with
      | none => rfl
      | some w => rw [hval] at h; simp at h
    simp [h, lookup_append_one r c v h0]

/-- Updating one column leaves the others unchanged. -/
theorem get_updateRow_other (r : Row) (c cq : String) (v : Cell)
    (hcc : cq ≠ c) :
    (updateRow r c v).get cq = r.get cq := by
  unfold updateRow Row.get
  by_cases h : (r.lookup c).isSome <;>
    simp [h, lookup_map_miss r c cq v hcc, lookup_append_one_other r c cq v hcc]

end PGNB

namespace PGNB

/-- Successful cell-7 post-processing decomposes into its four steps. -/
theorem cell7_eq_some (ag ng : DF) (p : Int) (res : DF)
    (h : cell7 ag ng p = some res) :
    ∃ agT amy1 amy2, addTech ag = some agT ∧
      dfSelect (pdConcat agT ng) agT.cols = some amy1 ∧
      fillNanOY amy1 p = some amy2 ∧
      fillZeroOY amy2 p = some res := by
  unfold cell7 at h
  simp only [Option.bind_eq_bind, Option.bind_eq_some, Option.pure_def,
    Option.some.injEq] at h
  obtain ⟨agT, hag, amy1, hsel, amy2, hnan, amy3, hzero, hres⟩ := h
  exact ⟨agT, amy1, amy2, hag, hsel, hnan, by rw [← hres]; exact hzero⟩

end PGNB

namespace PGNB

/-- Unpacking a successful NaN-fill: the guard held and the rows are the
mapped rows. -/
theorem fillNanOY_eq_some (df : DF) (y : Int) (res : DF)
    (h : fillNanOY df y = some res) :
    ("operating_year" ∈ df.cols
      && df.rows.all (fun r => numericCell (r.get "operating_year"))) = true ∧
    res = ⟨df.cols,
      df.rows.map (fun r =>
        if (r.get "operating_year").isNone then
          updateRow r "operating_year" (some (Value.vInt y))
        else r)⟩ := by
  unfold fillNanOY at h
  split at h
  · next hc => exact ⟨hc, by injection h with h2; exact h2.symm⟩
  · exact absurd h (by simp)

/-- Unpacking a successful zero-fill. -/
theorem fillZeroOY_eq_some (df : DF) (y : Int) (res : DF)
    (h : fillZeroOY df y = some res) :
    res = ⟨df.cols,
      df.rows.map (fun r =>
        if eqZeroCell (r.get "operating_year") then
          updateRow r "operating_year" (some (Value.vInt y))
        else r)⟩ := by
  unfold fillZeroOY at h
  split at h
  · injection h with h2; exact h2.symm
  · exact absurd h (by simp)

/-- C1: after post-processing, every row of the multi-period generator table
has a populated operating_year.  Whenever cell-7 completes (returns a table)
and the first planning period is a nonzero year, no row of the final table
has a NaN or zero operating_year: NaN rows and zero rows were both assigned
the first planning period. -/
theorem c1_operating_year_populated (ag ng : DF) (p : Int) (hp : p ≠ 0)
    (res : DF) (h : cell7 ag ng p = some res) :
    ∀ r ∈ res.rows,
      r.get "operating_year" ≠ none ∧
      r.get "operating_year" ≠ some (Value.vInt 0) := by
  obtain ⟨agT, amy1, amy2, hag, hsel, hnan, hzero⟩ := cell7_eq_some ag ng p res h
  obtain ⟨hcond, hamy2⟩ := fillNanOY_eq_some amy1 p amy2 hnan
  have hres := fillZeroOY_eq_some amy2 p res hzero
  have hall : ∀ r ∈ amy1.rows, numericCell (r.get "operating_year") = true := by
    intro r hr
    have := (Bool.and_eq_true _ _).mp hcond
    exact List.all_eq_true.mp this.2 r hr
  intro r hr
  rw [hres] at hr
  simp only [List.mem_map] at hr
  obtain ⟨r2, hr2, hr2eq⟩ := hr
  rw [hamy2] at hr2
  simp only [List.mem_map] at hr2
  obtain ⟨r1, hr1, hr1eq⟩ := hr2
  have hnum := hall r1 hr1
  have hpne : (some (Value.vInt p) : Cell) ≠ some (Value.vInt 0) := by
    intro hh
    injection hh with hh2
    injection hh2 with hh3
    exact hp hh3
  cases hcell : r1.get "operating_year" with
  | none =>
    have hstep1 : r2 = updateRow r1 "operating_year" (some (Value.vInt p)) := by
      rw [← hr1eq, hcell]; rfl
    have hget2 : r2.get "operating_year" = some (Value.vInt p) := by
      rw [hstep1]; exact get_updateRow_self _ _ _
    have hz : eqZeroCell (r2.get "operating_year") = false := by
      rw [hget2]
      unfold eqZeroCell
      simp [hp]
    have : r = r2 := by rw [← hr2eq, hz]; rfl
    rw [this, hget2]
    exact ⟨by simp, hpne⟩
  | some v =>
    cases v with
    | vStr s => rw [hcell] at hnum; simp [numericCell] at hnum
    | vInt n =>
      have hstep1 : r2 = r1 := by rw [← hr1eq, hcell]; rfl
      by_cases hn : n = 0
      · have hz : eqZeroCell (r2.get "operating_year") = true := by
          rw [hstep1, hcell, hn]
          unfold eqZeroCell
          simp
        have hup : r = updateRow r2 "operating_year" (some (Value.vInt p)) := by
          rw [← hr2eq, hz]; rfl
        have hget : r.get "operating_year" = some (Value.vInt p) := by
          rw [hup]; exact get_updateRow_self _ _ _
        rw [hget]
        exact ⟨by simp, hpne⟩
      · have hz : eqZeroCell (r2.get "operating_year") = false := by
          rw [hstep1, hcell]
          unfold eqZeroCell
          simp [hn]
        have : r = r2 := by rw [← hr2eq, hz]; rfl
        rw [this, hstep1, hcell]
        exact ⟨by simp, by intro hh; injection hh with hh2; injection hh2 with hh3; exact hn hh3⟩

end PGNB

namespace PGNB

/-- Unpacking a successful column selection. -/
theorem dfSelect_eq_some (df : DF) (cs : List String) (res : DF)
    (h : dfSelect df cs = some res) :
    (cs.all (fun c => df.cols.contains c)) = true ∧
    res = ⟨cs, df.rows.map (fun r => cs.map (fun c => (c, r.get c)))⟩ := by
  unfold dfSelect at h
  split at h
  · next hc => exact ⟨hc, by injection h with h2; exact h2.symm⟩
  · exact absurd h (by simp)

/-- Unpacking a successful tech-key construction. -/
theorem addTech_eq_some (df : DF) (res : DF) (h : addTech df = some res) :
    (("Resource" ∈ df.cols && "region" ∈ df.cols && "cluster" ∈ df.cols)
      && df.rows.all rowTechOk) = true ∧
    res = assignColFun df "tech" rowTechVal := by
  unfold addTech at h
  split at h
  · next hc => exact ⟨hc, by injection h with h2; exact h2.symm⟩
  · exact absurd h (by simp)

/-- Column assignment preserves the existing columns and can only append the
assigned name. -/
theorem assignColFun_cols (df : DF) (c : String) (f : Row → Cell) :
    (assignColFun df c f).cols = df.cols ∨
    (assignColFun df c f).cols = df.cols ++ [c] := by
  unfold assignColFun
  by_cases hc : df.cols.contains c = true
  · left; rw [if_pos hc]
  · right; rw [if_neg hc]

/-- C4: the combined multi-period table has exactly the start-year table's
column set (the start-year table being all_gens as concatenated, i.e. after
the tech key was added): every start-year column, including every original
all_gens column, appears in the combined table, and every column present
only in the new-generator table is dropped. -/
theorem c4_column_restriction (ag ng : DF) (p : Int) (res agT : DF)
    (hag : addTech ag = some agT) (h : cell7 ag ng p = some res) :
    res.cols = agT.cols ∧
    (∀ c ∈ ag.cols, c ∈ res.cols) ∧
    (∀ c ∈ ng.cols, c ∉ agT.cols → c ∉ res.cols) := by
  obtain ⟨agT2, amy1, amy2, hag2, hsel, hnan, hzero⟩ := cell7_eq_some ag ng p res h
  have hagT : agT2 = agT := by
    rw [hag] at hag2
    injection hag2 with h2
    exact h2.symm
  rw [hagT] at hsel
  have h1 : amy1.cols = agT.cols := by
    obtain ⟨-, hr⟩ := dfSelect_eq_some _ _ _ hsel
    rw [hr]
  have h2 : amy2.cols = amy1.cols := by
    obtain ⟨-, hr⟩ := fillNanOY_eq_some _ _ _ hnan
    rw [hr]
  have h3 : res.cols = amy2.cols := by
    have hr := fillZeroOY_eq_some _ _ _ hzero
    rw [hr]
  have hcols : res.cols = agT.cols := by rw [h3, h2, h1]
  refine ⟨hcols, ?_, ?_⟩
  · intro c hc
    rw [hcols]
    obtain ⟨-, hstruct⟩ := addTech_eq_some ag agT hag
    rcases assignColFun_cols ag "tech" rowTechVal with hA | hA
    · rw [hstruct, hA]; exact hc
    · rw [hstruct, hA]; exact List.mem_append_left _ hc
  · intro c _ hnot
    rw [hcols]
    exact hnot

end PGNB

namespace PGNB

/-- Reading a selected column from a row normalised to a column list gives
the original row's value. -/
theorem get_normRow (cs : List String) (r : Row) (c : String) (hc : c ∈ cs) :
    Row.get (cs.map (fun cq => (cq, r.get cq))) c = r.get c := by
  induction cs with
  | nil => exact absurd hc (List.not_mem_nil c)
  | cons c0 t ih =>
    by_cases h0 : c = c0
    · subst h0
      simp [Row.get, List.lookup_cons]
    · have hb : (c == c0) = false := by simp [h0]
      have hct : c ∈ t := by
        cases List.mem_cons.mp hc with
        | inl h => exact absurd h h0
        | inr h => exact h
      simp only [List.map_cons]
      unfold Row.get at ih ⊢
      simp only [List.lookup_cons, hb]
      exact ih hct

/-- Column assignment preserves the number of rows. -/
theorem assignColFun_rows_length (df : DF) (c : String) (f : Row → Cell) :
    (assignColFun df c f).rows.length = df.rows.length := by
  unfold assignColFun
  simp

/-- The assigned column name is always among the resulting columns. -/
theorem assignColFun_mem_cols (df : DF) (c : String) (f : Row → Cell) :
    c ∈ (assignColFun df c f).cols := by
  unfold assignColFun
  by_cases hc : df.cols.contains c = true
  · rw [if_pos hc]
    exact List.mem_of_elem_eq_true hc
  · rw [if_neg hc]
    exact List.mem_append_right _ (List.mem_singleton.mpr rfl)

end PGNB

namespace PGNB

/-- The operating-year fill steps do not change any other column of a row. -/
theorem get_fill_step (x : Row) (p : Int) (cnd : Bool) (cq : String)
    (hcq : cq ≠ "operating_year") :
    Row.get (if cnd then updateRow x "operating_year" (some (Value.vInt p)) else x) cq
      = x.get cq := by
  cases cnd with
  | false => rfl
  | true => exact get_updateRow_other x "operating_year" cq _ hcq

/-- C9: the composite key is added only to the start-year table before
concatenation, so in the final multi-period table every row that came from
the (non-empty) new-generator table reads NaN in the tech column.  The
new-generator table is a pandas frame, so its rows read NaN outside its own
columns (hWF), and it does not itself carry a tech column (htech). -/
theorem c9_new_gen_null_tech (ag ng : DF) (p : Int) (res : DF)
    (hWF : ∀ r ∈ ng.rows, ∀ c, c ∉ ng.cols → Row.get r c = none)
    (htech : "tech" ∉ ng.cols)
    (hne : ng.rows ≠ [])
    (h : cell7 ag ng p = some res) :
    res.rows.drop ag.rows.length ≠ [] ∧
    ∀ r ∈ res.rows.drop ag.rows.length, r.get "tech" = none := by
  obtain ⟨agT, amy1, amy2, hag, hsel, hnan, hzero⟩ := cell7_eq_some ag ng p res h
  obtain ⟨-, hagdef⟩ := addTech_eq_some ag agT hag
  obtain ⟨-, hamy1⟩ := dfSelect_eq_some _ _ _ hsel
  obtain ⟨-, hamy2⟩ := fillNanOY_eq_some _ _ _ hnan
  have hres := fillZeroOY_eq_some _ _ _ hzero
  have hlen : agT.rows.length = ag.rows.length := by
    rw [hagdef]; exact assignColFun_rows_length ag "tech" rowTechVal
  have htechT : "tech" ∈ agT.cols := by
    rw [hagdef]; exact assignColFun_mem_cols ag "tech" rowTechVal
  have e3 : res.rows = amy2.rows.map (fun r =>
      if eqZeroCell (Row.get r "operating_year") then
        updateRow r "operating_year" (some (Value.vInt p))
      else r) := by rw [hres]
  have e2 : amy2.rows = amy1.rows.map (fun r =>
      if (Row.get r "operating_year").isNone then
        updateRow r "operating_year" (some (Value.vInt p))
      else r) := by rw [hamy2]
  have e1 : amy1.rows = (agT.rows ++ ng.rows).map
      (fun r => agT.cols.map (fun c => (c, Row.get r c))) := by
    rw [hamy1]
    rfl
  have hkey : res.rows.drop ag.rows.length =
      ng.rows.map (fun r0 =>
        (fun r =>
          if eqZeroCell (Row.get r "operating_year") then
            updateRow r "operating_year" (some (Value.vInt p))
          else r)
        ((fun r =>
          if (Row.get r "operating_year").isNone then
            updateRow r "operating_year" (some (Value.vInt p))
          else r)
        (agT.cols.map (fun c => (c, Row.get r0 c))))) := by
    rw [e3, e2, e1, List.map_map, List.map_map, List.map_append]
    rw [List.drop_left' (by rw [List.length_map, hlen])]
    rfl
  rw [hkey]
  have hne1 : ("tech" : String) ≠ "operating_year" := by decide
  constructor
  · intro hnil
    exact hne (List.map_eq_nil_iff.mp hnil)
  · intro r hr
    obtain ⟨r0, hr0, hreq⟩ := List.mem_map.mp hr
    rw [← hreq]
    rw [get_fill_step _ p _ _ hne1]
    rw [get_fill_step _ p _ _ hne1]
    rw [get_normRow _ _ _ htechT]
    exact hWF r0 hr0 "tech" htech

end PGNB

namespace PGNB

/-- C10: the composite-key construction requires every cluster value to be a
non-null, integer-convertible cell.  When the key construction succeeds,
every row's cluster cell converted; and any table with a NaN or unparsable
cluster value makes the construction raise (return none), so the original
table is left as it was, in particular without the key column. -/
theorem c10_cluster_convertible (df : DF) :
    (∀ res, addTech df = some res →
      ∀ r ∈ df.rows, (cellToInt (r.get "cluster")).isSome = true) ∧
    ((∃ r ∈ df.rows, (cellToInt (r.get "cluster")).isSome = false) →
      addTech df = none) := by
  constructor
  · intro res h r hr
    obtain ⟨hguard, -⟩ := addTech_eq_some df res h
    have hall := ((Bool.and_eq_true _ _).mp hguard).2
    have hok := List.all_eq_true.mp hall r hr
    unfold rowTechOk at hok
    exact ((Bool.and_eq_true _ _).mp hok).2
  · rintro ⟨r, hr, hbad⟩
    cases hres : addTech df with
    | none => rfl
    | some res =>
      obtain ⟨hguard, -⟩ := addTech_eq_some df res hres
      have hall := ((Bool.and_eq_true _ _).mp hguard).2
      have hok := List.all_eq_true.mp hall r hr
      unfold rowTechOk at hok
      have := ((Bool.and_eq_true _ _).mp hok).2
      rw [hbad] at this
      exact absurd this (by simp)

/-- Concrete one-row generator table used as the C7 counterexample input:
Resource "a", region "b", cluster 1. -/
def c7cexDF : DF :=
  ⟨["Resource", "region", "cluster"],
   [[("Resource", some (Value.vStr "a")), ("region", some (Value.vStr "b")),
     ("cluster", some (Value.vInt 1))]]⟩

/-- C7 counterexample: the notebook joins the three parts with '-'
separators, so the key is "a-b-1", not the plain concatenation "ab1" the
claim words would give. -/
theorem c7_counterexample :
    (addTech c7cexDF).map (fun d => d.rows.map (fun r => Row.get r "tech"))
      = some [some (Value.vStr "a-b-1")] ∧
    (addTech c7cexDF).map (fun d => d.rows.map (fun r => Row.get r "tech"))
      ≠ some [some (Value.vStr ("a" ++ "b" ++ toString (1 : Int)))] := by
  constructor
  · rfl
  · decide

/-- C7 amended: for every row whose Resource and region are strings and
whose cluster converts to an integer, the key produced by the composite-key
construction equals resource name, region and cluster index (rendered as a
string) concatenated with '-' separators between the parts. -/
theorem c7_amended_tech_key (df res : DF) (h : addTech df = some res)
    (i : Nat) (r : Row) (hr : df.rows[i]? = some r)
    (a b : String) (k : Int)
    (ha : r.get "Resource" = some (Value.vStr a))
    (hb : r.get "region" = some (Value.vStr b))
    (hk : cellToInt (r.get "cluster") = some k) :
    ∃ rq, res.rows[i]? = some rq ∧
      rq.get "tech" = some (Value.vStr (a ++ "-" ++ b ++ "-" ++ toString k)) := by
  obtain ⟨-, hdef⟩ := addTech_eq_some df res h
  refine ⟨updateRow r "tech" (rowTechVal r), ?_, ?_⟩
  · rw [hdef]
    unfold assignColFun
    simp [List.getElem?_map, hr]
  · rw [get_updateRow_self]
    unfold rowTechVal
    rw [ha, hb, hk]

end PGNB

namespace PGNB

/-- Python str.replace on character lists: replace every left-to-right,
non-overlapping occurrence of pat by rep.  fuel bounds the recursion and is
instantiated with the list length, which always suffices; the notebook only
ever replaces the non-empty pattern ".yml". -/
def replList (pat rep : List Char) : Nat → List Char → List Char
  | _, [] => []
  | 0, l => l
  | fuel + 1, c :: rest =>
    if pat.isPrefixOf (c :: rest) then
      rep ++ replList pat rep fuel ((c :: rest).drop pat.length)
    else
      c :: replList pat rep fuel rest

/-- Python str.replace(old, new) for strings. -/
def pyReplace (s pat rep : String) : String :=
  ⟨replList pat.data rep.data s.data.length s.data⟩

/-- Cell-4: file_prefix = str(settings_path).replace('.yml', '_').  Note
that Python's replace substitutes every occurrence of '.yml', not only a
final extension. -/
def filePfx (settingsPath : String) : String :=
  pyReplace settingsPath ".yml" "_"

/-- The resolved run settings the notebook reads: the configured region
aggregations, the planning periods (the keys of scenario_settings built by
the external build_scenario_settings), and the hard-coded scenario name. -/
structure Settings where
  region_aggregations : List String
  all_periods : List Int
  scenario : String

/-- The external powergenome services the notebook calls, uninterpreted.
Settings/engine arguments that the notebook passes through unchanged are
folded into the functions; create/load functions take the planning period
and scenario they are resolved with. -/
structure Externals where
  create_new_generators : Int → String → DF
  create_all_generators : Int → String → DF
  make_final_load_curves : Int → String → DF
  add_misc_gen_values : DF → DF
  make_generator_variability : DF → DF
  reduce_time_domain : DF → DF → DF × DF × DF
  agg_transmission_constraints : DF
  load_ipm_shapefile : DF
  transmission_line_distance : DF → DF → DF
  network_line_loss : DF → DF
  network_reinforcement_cost : DF → DF
  network_max_reinforcement : DF → DF

/-- The in-memory tables plus what the fresh run wrote: writes lists the
CSV files the run itself produced (path, content), fs is the resulting file
system (run's writes shadowing any pre-existing fs0 entries). to_csv
followed by read_csv is modelled as storing and retrieving the table; the
CSV byte-level codec lives in external pandas. -/
structure PipelineOut where
  reduced_load_profile : DF
  reduced_resource_profile : DF
  all_gens : DF
  new_gen : DF
  transmission : Option DF
  writes : List (String × DF)
  fs : List (String × DF)

/-- The in-memory tables alone, as the reload branch rebuilds them. -/
structure Tables where
  reduced_load_profile : DF
  reduced_resource_profile : DF
  all_gens : DF
  new_gen : DF
  transmission : Option DF

/-- Cell-5 loop: for year in all_periods[1:], create the new generators for
that period, tag every row with the period, and concat onto the
accumulator, starting from pd.DataFrame(). -/
def newGenLoop (ext : Externals) (scenario : String) (years : List Int) : DF :=
  years.foldl
    (fun acc y =>
      pdConcat acc
        (assignColFun (ext.create_new_generators y scenario) "operating_year"
          (fun _ => some (Value.vInt y))))
    emptyDF

/-- Cell-4 and cell-5 with run_new == 1: the fresh computation.  none models
the IndexError of all_periods[0] on an empty period list.  The external
calls happen in the notebook's order; the transmission pipeline runs and is
written only when more than one region aggregation is configured; the four
generator/load CSVs are always written. -/
def runFresh (ext : Externals) (s : Settings) (settingsPath : String)
    (fs0 : List (String × DF)) : Option PipelineOut :=
  match s.all_periods with
  | [] => none
  | start_year :: laterPeriods =>
    let pfx := filePfx settingsPath
    let new_gen0 := newGenLoop ext s.scenario laterPeriods
    let load_curves := ext.make_final_load_curves start_year s.scenario
    let all_gens0 := ext.create_all_generators start_year s.scenario
    let all_gens1 := ext.add_misc_gen_values all_gens0
    let new_gen1 := ext.add_misc_gen_values new_gen0
    let gen_variability := ext.make_generator_variability all_gens1
    let red := ext.reduce_time_domain gen_variability load_curves
    let reduced_resource_profile := red.1
    let reduced_load_profile := red.2.1
    if s.region_aggregations.length > 1 then
      let t0 := ext.agg_transmission_constraints
      let model_regions_gdf := ext.load_ipm_shapefile
      let t1 := ext.transmission_line_distance t0 model_regions_gdf
      let t2 := ext.network_line_loss t1
      let t3 := ext.network_reinforcement_cost t2
      let t4 := ext.network_max_reinforcement t3
      let writes := [(pfx ++ "transmission.csv", t4),
                     (pfx ++ "reduced_load_profile.csv", reduced_load_profile),
                     (pfx ++ "reduced_resource_profile.csv", reduced_resource_profile),
                     (pfx ++ "all_gens.csv", all_gens1),
                     (pfx ++ "new_gen.csv", new_gen1)]
      some ⟨reduced_load_profile, reduced_resource_profile, all_gens1,
            new_gen1, some t4, writes, writes ++ fs0⟩
    else
      let writes := [(pfx ++ "reduced_load_profile.csv", reduced_load_profile),
                     (pfx ++ "reduced_resource_profile.csv", reduced_resource_profile),
                     (pfx ++ "all_gens.csv", all_gens1),
                     (pfx ++ "new_gen.csv", new_gen1)]
      some ⟨reduced_load_profile, reduced_resource_profile, all_gens1,
            new_gen1, none, writes, writes ++ fs0⟩

/-- Cell-6, the reload branch (run_new != 1): read the four CSVs back, and
the transmission CSV only when more than one region aggregation is
configured.  A missing file raises (none); the transmission variable is
simply not set otherwise. -/
def runReload (s : Settings) (settingsPath : String)
    (fs : List (String × DF)) : Option Tables :=
  let pfx := filePfx settingsPath
  match fs.lookup (pfx ++ "reduced_load_profile.csv"),
        fs.lookup (pfx ++ "reduced_resource_profile.csv"),
        fs.lookup (pfx ++ "all_gens.csv"),
        fs.lookup (pfx ++ "new_gen.csv") with
  | some rlp, some rrp, some ag, some ng =>
    if s.region_aggregations.length > 1 then
      match fs.lookup (pfx ++ "transmission.csv") with
      | some t => some ⟨rlp, rrp, ag, ng, some t⟩
      | none => none
    else
      some ⟨rlp, rrp, ag, ng, none⟩
  | _, _, _, _ => none

/-- Cell-4: run_new is hard-coded to 1 in the notebook. -/
def run_new : Nat := 1

/-- The notebook's cells 5 and 6 together: with run_new = 1 the fresh branch
executes and the reload branch is skipped. -/
def notebookRun (ext : Externals) (s : Settings) (settingsPath : String)
    (fs0 : List (String × DF)) : Option PipelineOut :=
  if run_new = 1 then
    runFresh ext s settingsPath fs0
  else
    (runReload s settingsPath fs0).map
      (fun t => ⟨t.reduced_load_profile, t.reduced_resource_profile,
                 t.all_gens, t.new_gen, t.transmission, [], fs0⟩)

end PGNB

namespace PGNB

/-- Appending to a common front string is injective. -/
theorem str_append_cancel (p a b : String) (h : p ++ a = p ++ b) : a = b := by
  cases p with
  | mk pd =>
    cases a with
    | mk ad =>
      cases b with
      | mk bd =>
        have hd : pd ++ ad = pd ++ bd := by
          have := congrArg String.data h
          simpa [String.data] using this
        have : ad = bd := List.append_cancel_left hd
        rw [this]

/-- Distinct suffixes under a common front compare as unequal strings. -/
theorem beq_append_ne (p a b : String) (hab : a ≠ b) :
    ((p ++ a) == (p ++ b)) = false := by
  simp only [beq_eq_false_iff_ne]
  intro h
  exact hab (str_append_cancel p a b h)

end PGNB

namespace PGNB

/-- C3: executing the reload branch over the file system produced by a fresh
computation yields exactly the fresh run's in-memory tables (transmission
included when applicable), CSV round-tripping being modelled as storage and
retrieval of the table. -/
theorem c3_reload_reproduces_fresh (ext : Externals) (s : Settings)
    (path : String) (fs0 : List (String × DF)) (out : PipelineOut)
    (h : runFresh ext s path fs0 = some out) :
    runReload s path out.fs =
      some ⟨out.reduced_load_profile, out.reduced_resource_profile,
            out.all_gens, out.new_gen, out.transmission⟩ := by
  have nTL := beq_append_ne (filePfx path) "reduced_load_profile.csv" "transmission.csv" (by decide)
  have nTR := beq_append_ne (filePfx path) "reduced_resource_profile.csv" "transmission.csv" (by decide)
  have nTA := beq_append_ne (filePfx path) "all_gens.csv" "transmission.csv" (by decide)
  have nTN := beq_append_ne (filePfx path) "new_gen.csv" "transmission.csv" (by decide)
  have nLR := beq_append_ne (filePfx path) "reduced_resource_profile.csv" "reduced_load_profile.csv" (by decide)
  have nLA := beq_append_ne (filePfx path) "all_gens.csv" "reduced_load_profile.csv" (by decide)
  have nLN := beq_append_ne (filePfx path) "new_gen.csv" "reduced_load_profile.csv" (by decide)
  have nRA := beq_append_ne (filePfx path) "all_gens.csv" "reduced_resource_profile.csv" (by decide)
  have nRN := beq_append_ne (filePfx path) "new_gen.csv" "reduced_resource_profile.csv" (by decide)
  have nAN := beq_append_ne (filePfx path) "new_gen.csv" "all_gens.csv" (by decide)
  cases hper : s.all_periods with
  | nil =>
    rw [runFresh, hper] at h
    exact absurd h (by simp)
  | cons y ys =>
    by_cases hlen : s.region_aggregations.length > 1
    · rw [runFresh, hper] at h
      simp only [hlen, if_true] at h
      injection h with h2
      subst h2
      simp only [runReload, List.cons_append, List.lookup_cons,
        beq_self_eq_true, nTL, nTR, nTA, nTN, nLR, nLA, nLN, nRA, nRN, nAN,
        hlen, if_true]
    · rw [runFresh, hper] at h
      simp only [hlen, if_false] at h
      injection h with h2
      subst h2
      simp only [runReload, List.cons_append, List.lookup_cons,
        beq_self_eq_true, nLR, nLA, nLN, nRA, nRN, nAN, hlen, if_false]

end PGNB

namespace PGNB

/-- C2: in a notebook run (run_new hard-coded to 1), the transmission CSV is
among the files the run writes exactly when more than one region aggregation
is configured, and with at most one aggregation the transmission pipeline is
never invoked (the transmission table does not exist in memory). -/
theorem c2_transmission_written_iff (ext : Externals) (s : Settings)
    (path : String) (fs0 : List (String × DF)) (out : PipelineOut)
    (h : notebookRun ext s path fs0 = some out) :
    ((filePfx path ++ "transmission.csv") ∈ out.writes.map Prod.fst ↔
      s.region_aggregations.length > 1) ∧
    (s.region_aggregations.length ≤ 1 → out.transmission = none) := by
  rw [notebookRun] at h
  simp only [run_new, if_true, reduceIte] at h
  have m1 : filePfx path ++ "transmission.csv" ≠ filePfx path ++ "reduced_load_profile.csv" :=
    fun hh => absurd (str_append_cancel _ _ _ hh) (by decide)
  have m2 : filePfx path ++ "transmission.csv" ≠ filePfx path ++ "reduced_resource_profile.csv" :=
    fun hh => absurd (str_append_cancel _ _ _ hh) (by decide)
  have m3 : filePfx path ++ "transmission.csv" ≠ filePfx path ++ "all_gens.csv" :=
    fun hh => absurd (str_append_cancel _ _ _ hh) (by decide)
  have m4 : filePfx path ++ "transmission.csv" ≠ filePfx path ++ "new_gen.csv" :=
    fun hh => absurd (str_append_cancel _ _ _ hh) (by decide)
  cases hper : s.all_periods with
  | nil =>
    rw [runFresh, hper] at h
    exact absurd h (by simp)
  | cons y ys =>
    rw [runFresh, hper] at h
    by_cases hlen : s.region_aggregations.length > 1
    · simp only [hlen, if_true] at h
      injection h with h2
      subst h2
      constructor
      · simp [hlen]
      · intro hle
        exact absurd hlen (by omega)
    · simp only [hlen, if_false] at h
      injection h with h2
      subst h2
      constructor
      · simp [hlen, m1, m2, m3, m4]
      · intro _
        rfl

/-- C6: with more than one region aggregation, the in-memory transmission
table is the output of the aggregation service passed through the distance,
line-loss, reinforcement-cost and max-reinforcement calls in exactly that
order, and the transmission CSV written holds exactly that table. -/
theorem c6_transmission_pipeline (ext : Externals) (s : Settings)
    (path : String) (fs0 : List (String × DF)) (out : PipelineOut)
    (h : runFresh ext s path fs0 = some out)
    (hlen : s.region_aggregations.length > 1) :
    out.transmission =
      some (ext.network_max_reinforcement
        (ext.network_reinforcement_cost
          (ext.network_line_loss
            (ext.transmission_line_distance
              ext.agg_transmission_constraints
              ext.load_ipm_shapefile)))) ∧
    out.fs.lookup (filePfx path ++ "transmission.csv") = out.transmission ∧
    (filePfx path ++ "transmission.csv", ext.network_max_reinforcement
        (ext.network_reinforcement_cost
          (ext.network_line_loss
            (ext.transmission_line_distance
              ext.agg_transmission_constraints
              ext.load_ipm_shapefile)))) ∈ out.writes := by
  cases hper : s.all_periods with
  | nil =>
    rw [runFresh, hper] at h
    exact absurd h (by simp)
  | cons y ys =>
    rw [runFresh, hper] at h
    simp only [hlen, if_true] at h
    injection h with h2
    subst h2
    refine ⟨rfl, ?_, ?_⟩
    · simp [List.cons_append, List.lookup_cons]
    · simp

end PGNB

namespace PGNB

/-- Every row produced by the cell-5 new-generator loop either came from the
accumulator or is tagged with one of the loop's planning periods. -/
theorem foldl_newgen_mem (ext : Externals) (sc : String) :
    ∀ (ys : List Int) (acc : DF) (r : Row),
      r ∈ (ys.foldl
        (fun acc y =>
          pdConcat acc
            (assignColFun (ext.create_new_generators y sc) "operating_year"
              (fun _ => some (Value.vInt y)))) acc).rows →
      r ∈ acc.rows ∨ ∃ y ∈ ys, Row.get r "operating_year" = some (Value.vInt y) := by
  intro ys
  induction ys with
  | nil => exact fun acc r hr => Or.inl hr
  | cons y t ih =>
    intro acc r hr
    rw [List.foldl_cons] at hr
    rcases ih _ r hr with hin | ⟨y2, hy2, hget⟩
    · rcases List.mem_append.mp hin with h1 | h2
      · exact Or.inl h1
      · right
        refine ⟨y, List.mem_cons_self y t, ?_⟩
        obtain ⟨r0, -, hr0⟩ := List.mem_map.mp h2
        rw [← hr0]
        exact get_updateRow_self r0 "operating_year" (some (Value.vInt y))
    · exact Or.inr ⟨y2, List.mem_cons_of_mem y hy2, hget⟩

/-- The combined multi-period table has one row per start-year row plus one
per new-generator row. -/
theorem cell7_rows_length (ag ng : DF) (p : Int) (res : DF)
    (h : cell7 ag ng p = some res) :
    res.rows.length = ag.rows.length + ng.rows.length := by
  obtain ⟨agT, amy1, amy2, hag, hsel, hnan, hzero⟩ := cell7_eq_some ag ng p res h
  obtain ⟨-, hagdef⟩ := addTech_eq_some ag agT hag
  have hres := fillZeroOY_eq_some _ _ _ hzero
  have hamy2 := (fillNanOY_eq_some _ _ _ hnan).2
  have hamy1 := (dfSelect_eq_some _ _ _ hsel).2
  rw [hres]
  simp only [List.length_map]
  rw [hamy2]
  simp only [List.length_map]
  rw [hamy1]
  simp only [List.length_map]
  show (pdConcat agT ng).rows.length = ag.rows.length + ng.rows.length
  have : agT.rows.length = ag.rows.length := by
    rw [hagdef]; exact assignColFun_rows_length ag "tech" rowTechVal
  simp [pdConcat, this]

/-- Rows coming from the new-generator side of the concat whose
operating_year is a fixed nonzero integer keep that value through both
fill steps of cell-7. -/
theorem cell7_new_rows_keep_oy (ag ng : DF) (p : Int) (res : DF) (m : Int)
    (hm : m ≠ 0)
    (hval : ∀ r ∈ ng.rows, Row.get r "operating_year" = some (Value.vInt m))
    (h : cell7 ag ng p = some res) :
    ∀ r ∈ res.rows.drop ag.rows.length,
      Row.get r "operating_year" = some (Value.vInt m) := by
  obtain ⟨agT, amy1, amy2, hag, hsel, hnan, hzero⟩ := cell7_eq_some ag ng p res h
  obtain ⟨-, hagdef⟩ := addTech_eq_some ag agT hag
  obtain ⟨hguard, hamy2⟩ := fillNanOY_eq_some _ _ _ hnan
  obtain ⟨-, hamy1⟩ := dfSelect_eq_some _ _ _ hsel
  have hres := fillZeroOY_eq_some _ _ _ hzero
  have hlen : agT.rows.length = ag.rows.length := by
    rw [hagdef]; exact assignColFun_rows_length ag "tech" rowTechVal
  have hoy : "operating_year" ∈ agT.cols := by
    have h1 := ((Bool.and_eq_true _ _).mp hguard).1
    have h2 : amy1.cols = agT.cols := by rw [hamy1]
    rw [← h2]
    exact of_decide_eq_true h1
  have e3 : res.rows = amy2.rows.map (fun r =>
      if eqZeroCell (Row.get r "operating_year") then
        updateRow r "operating_year" (some (Value.vInt p))
      else r) := by rw [hres]
  have e2 : amy2.rows = amy1.rows.map (fun r =>
      if (Row.get r "operating_year").isNone then
        updateRow r "operating_year" (some (Value.vInt p))
      else r) := by rw [hamy2]
  have e1 : amy1.rows = (agT.rows ++ ng.rows).map
      (fun r => agT.cols.map (fun c => (c, Row.get r c))) := by
    rw [hamy1]
    rfl
  have hkey : res.rows.drop ag.rows.length =
      ng.rows.map (fun r0 =>
        (fun r =>
          if eqZeroCell (Row.get r "operating_year") then
            updateRow r "operating_year" (some (Value.vInt p))
          else r)
        ((fun r =>
          if (Row.get r "operating_year").isNone then
            updateRow r "operating_year" (some (Value.vInt p))
          else r)
        (agT.cols.map (fun c => (c, Row.get r0 c))))) := by
    rw [e3, e2, e1, List.map_map, List.map_map, List.map_append]
    rw [List.drop_left' (by rw [List.length_map, hlen])]
    rfl
  rw [hkey]
  intro r hr
  obtain ⟨r0, hr0, hreq⟩ := List.mem_map.mp hr
  rw [← hreq]
  have hg : Row.get (agT.cols.map (fun c => (c, Row.get r0 c))) "operating_year"
      = some (Value.vInt m) := by
    rw [get_normRow _ _ _ hoy]
    exact hval r0 hr0
  have hgn : (fun r =>
      if (Row.get r "operating_year").isNone then
        updateRow r "operating_year" (some (Value.vInt p))
      else r) (agT.cols.map (fun c => (c, Row.get r0 c)))
      = agT.cols.map (fun c => (c, Row.get r0 c)) := by
    simp [hg]
  rw [hgn]
  have hz : eqZeroCell (Row.get (agT.cols.map (fun c => (c, Row.get r0 c)))
      "operating_year") = false := by
    rw [hg]
    unfold eqZeroCell
    simp [hm]
  simp only [hz, Bool.false_eq_true, if_false]
  exact hg

end PGNB

namespace PGNB

/-- C5: the accumulated new-generator table holds rows only for planning
periods strictly after the first, each tagged with the period whose service
call produced it (add_misc_gen_values, an external call, is assumed to
leave the operating_year column of each row unchanged, hmisc).  With
planning periods [2025, 2030] every new-generator row is tagged 2030, and
the combined cell-7 table consists of the start-year rows followed by the
new rows, the latter still tagged 2030. -/
theorem c5_new_gen_tagged_periods (ext : Externals) (s : Settings)
    (path : String) (fs0 : List (String × DF)) (out : PipelineOut)
    (h : runFresh ext s path fs0 = some out)
    (hmisc : ∀ df, (ext.add_misc_gen_values df).rows.map
        (fun r => Row.get r "operating_year")
      = df.rows.map (fun r => Row.get r "operating_year")) :
    (∀ r ∈ out.new_gen.rows, ∃ y ∈ s.all_periods.drop 1,
        Row.get r "operating_year" = some (Value.vInt y)) ∧
    (s.all_periods = [2025, 2030] →
      (∀ r ∈ out.new_gen.rows,
        Row.get r "operating_year" = some (Value.vInt 2030)) ∧
      ∀ res, cell7 out.all_gens out.new_gen 2025 = some res →
        res.rows.length = out.all_gens.rows.length + out.new_gen.rows.length ∧
        ∀ r ∈ res.rows.drop out.all_gens.rows.length,
          Row.get r "operating_year" = some (Value.vInt 2030)) := by
  cases hper : s.all_periods with
  | nil =>
    rw [runFresh, hper] at h
    exact absurd h (by simp)
  | cons y ys =>
    have hng : out.new_gen = ext.add_misc_gen_values (newGenLoop ext s.scenario ys) := by
      rw [runFresh, hper] at h
      by_cases hlen : s.region_aggregations.length > 1
      · simp only [hlen, if_true] at h
        injection h with h2
        rw [← h2]
      · simp only [hlen, if_false] at h
        injection h with h2
        rw [← h2]
    have hpart1 : ∀ r ∈ out.new_gen.rows, ∃ y2 ∈ ys,
        Row.get r "operating_year" = some (Value.vInt y2) := by
      intro r hr
      rw [hng] at hr
      have hmem : Row.get r "operating_year" ∈
          (ext.add_misc_gen_values (newGenLoop ext s.scenario ys)).rows.map
            (fun r => Row.get r "operating_year") :=
        List.mem_map_of_mem _ hr
      rw [hmisc] at hmem
      obtain ⟨r0, hr0, heq⟩ := List.mem_map.mp hmem
      rcases foldl_newgen_mem ext s.scenario ys emptyDF r0 hr0 with habs | ⟨y2, hy2, hget⟩
      · exact absurd habs (by simp [emptyDF])
      · exact ⟨y2, hy2, by rw [← heq]; exact hget⟩
    constructor
    · simpa using hpart1
    · intro hps
      injection hps with hy hys
      subst hys
      have h2030 : ∀ r ∈ out.new_gen.rows,
          Row.get r "operating_year" = some (Value.vInt 2030) := by
        intro r hr
        obtain ⟨y2, hy2, hget⟩ := hpart1 r hr
        have hy2e : y2 = 2030 := by simpa using hy2
        rw [hy2e] at hget
        exact hget
      refine ⟨h2030, ?_⟩
      intro res hres
      exact ⟨cell7_rows_length _ _ _ _ hres,
        cell7_new_rows_keep_oy _ _ _ _ 2030 (by decide) h2030 hres⟩

end PGNB

namespace PGNB

/-- Whether pat occurs as a contiguous substring of l. -/
def hasSubList (l pat : List Char) : Bool :=
  l.tails.any (fun t => pat.isPrefixOf t)

/-- Whether pat occurs as a contiguous substring of s. -/
def hasSub (s pat : String) : Bool :=
  hasSubList s.data pat.data

/-- The character pattern '.yml' replaced by cell-4. -/
def ymlPat : List Char := ['.', 'y', 'm', 'l']

/-- One output CSV path as cell-5 forms it: file_prefix + artifact + '.csv'. -/
def outputPath (settingsPath artifact : String) : String :=
  filePfx settingsPath ++ (artifact ++ ".csv")

/-- Everything up to the last '.' of the path, or the whole path when it has
no dot: the stem used when speaking of the extension being replaced. -/
def dropExtList (l : List Char) : List Char :=
  match l.reverse.dropWhile (fun c => c ≠ '.') with
  | [] => l
  | _ :: t => t.reverse

/-- Modelled from the spec: an output CSV path formed from the settings-file
path with its extension replaced by _<artifact>.csv (spec-follower
definition, to compare with the code's outputPath). -/
def specOutputPath (settingsPath artifact : String) : String :=
  ⟨dropExtList settingsPath.data⟩ ++ "_" ++ artifact ++ ".csv"

/-- If '.yml' is a prefix of c :: (t ++ '.yml'), then it already was a
prefix of c :: t: with fewer than three characters in t the pattern would
have to overlap itself, which '.yml' cannot. -/
theorem prefix_of_boundary (c : Char) (t : List Char)
    (h : ymlPat.isPrefixOf (c :: (t ++ ymlPat)) = true) :
    ymlPat.isPrefixOf (c :: t) = true := by
  match t with
  | [] =>
    simp [ymlPat, List.isPrefixOf, List.isPrefixOf_cons₂] at h
  | [d] =>
    simp [ymlPat, List.isPrefixOf, List.isPrefixOf_cons₂] at h
  | [d, e] =>
    simp [ymlPat, List.isPrefixOf, List.isPrefixOf_cons₂] at h
  | d :: e :: f :: rest =>
    simp only [ymlPat, List.cons_append, List.isPrefixOf_cons₂,
      List.isPrefixOf_nil_left, Bool.and_true] at h ⊢
    exact h

/-- Substring absence is inherited by the tail. -/
theorem hasSubList_tail (c : Char) (t pat : List Char)
    (h : hasSubList (c :: t) pat = false) : hasSubList t pat = false := by
  unfold hasSubList at h ⊢
  rw [List.tails_cons, List.any_cons] at h
  exact ((Bool.or_eq_false_iff).mp h).2

/-- Python replace of '.yml' by '_' on l ++ '.yml', when '.yml' does not
occur in l, rewrites exactly the final occurrence. -/
theorem replList_append_yml :
    ∀ (l : List Char) (fuel : Nat), l.length + 4 ≤ fuel →
      hasSubList l ymlPat = false →
      replList ymlPat ['_'] fuel (l ++ ymlPat) = l ++ ['_'] := by
  intro l
  induction l with
  | nil =>
    intro fuel hfuel hno
    match fuel with
    | f + 1 =>
      show replList ymlPat ['_'] (f + 1) ymlPat = ['_']
      simp [replList, ymlPat, List.isPrefixOf, List.isPrefixOf_cons₂]
  | cons c t ih =>
    intro fuel hfuel hno
    cases fuel with
    | zero => exact absurd hfuel (by omega)
    | succ f =>
      have hb : ymlPat.isPrefixOf (c :: (t ++ ymlPat)) = false := by
        cases hx : ymlPat.isPrefixOf (c :: (t ++ ymlPat)) with
        | false => rfl
        | true =>
          have hpre := prefix_of_boundary c t hx
          have htrue : hasSubList (c :: t) ymlPat = true := by
            unfold hasSubList
            rw [List.any_eq_true]
            exact ⟨c :: t, (List.mem_tails _ _).mpr (List.suffix_refl _), hpre⟩
          rw [htrue] at hno
          exact absurd hno (by decide)
      show replList ymlPat ['_'] (f + 1) (c :: (t ++ ymlPat)) = (c :: t) ++ ['_']
      rw [replList]
      rw [if_neg (by simp [hb])]
      rw [ih f (by simp at hfuel; omega) (hasSubList_tail c t ymlPat hno)]
      rfl

/-- On a settings path of the form stem + '.yml' where '.yml' does not occur
in the stem, cell-4's file_prefix is stem + '_'. -/
theorem filePfx_stem (stem : String) (hno : hasSub stem ".yml" = false) :
    filePfx (stem ++ ".yml") = stem ++ "_" := by
  cases stem with
  | mk sd =>
    have hno2 : hasSubList sd ymlPat = false := hno
    show String.mk (replList (".yml" : String).data ("_" : String).data
        ((String.mk sd ++ ".yml").data.length) ((String.mk sd ++ ".yml").data))
      = String.mk sd ++ "_"
    have e : (String.mk sd ++ ".yml").data = sd ++ ymlPat := rfl
    rw [show (".yml" : String).data = ymlPat from rfl,
        show ("_" : String).data = ['_'] from rfl, e]
    show String.mk (replList ymlPat ['_'] ((sd ++ ymlPat).length) (sd ++ ymlPat))
      = String.mk (sd ++ ['_'])
    congr 1
    exact replList_append_yml sd _ (by simp [ymlPat]) hno2

end PGNB

namespace PGNB

/-- The five artifact names the notebook writes. -/
def artifactNames : List String :=
  ["reduced_load_profile", "reduced_resource_profile", "all_gens",
   "new_gen", "transmission"]

/-- Equal data means equal strings. -/
theorem str_data_ext (a b : String) (h : a.data = b.data) : a = b := by
  cases a with
  | mk ad =>
    cases b with
    | mk bd =>
      have h2 : ad = bd := h
      rw [h2]

/-- Every CSV path a fresh run writes is outputPath applied to one of the
five artifact names. -/
theorem runFresh_writes_are_outputPaths (ext : Externals) (s : Settings)
    (path : String) (fs0 : List (String × DF)) (out : PipelineOut)
    (h : runFresh ext s path fs0 = some out) :
    ∀ q ∈ out.writes.map Prod.fst, ∃ art ∈ artifactNames,
      q = outputPath path art := by
  have eL : filePfx path ++ "reduced_load_profile.csv"
      = outputPath path "reduced_load_profile" := rfl
  have eR : filePfx path ++ "reduced_resource_profile.csv"
      = outputPath path "reduced_resource_profile" := rfl
  have eA : filePfx path ++ "all_gens.csv" = outputPath path "all_gens" := rfl
  have eN : filePfx path ++ "new_gen.csv" = outputPath path "new_gen" := rfl
  have eT : filePfx path ++ "transmission.csv"
      = outputPath path "transmission" := rfl
  cases hper : s.all_periods with
  | nil =>
    rw [runFresh, hper] at h
    exact absurd h (by simp)
  | cons y ys =>
    rw [runFresh, hper] at h
    by_cases hlen : s.region_aggregations.length > 1
    · simp only [hlen, if_true] at h
      injection h with h2
      subst h2
      intro q hq
      simp only [List.map_cons, List.map_nil, List.mem_cons,
        List.not_mem_nil, or_false] at hq
      rcases hq with rfl | rfl | rfl | rfl | rfl
      · exact ⟨"transmission", by simp [artifactNames], eT⟩
      · exact ⟨"reduced_load_profile", by simp [artifactNames], eL⟩
      · exact ⟨"reduced_resource_profile", by simp [artifactNames], eR⟩
      · exact ⟨"all_gens", by simp [artifactNames], eA⟩
      · exact ⟨"new_gen", by simp [artifactNames], eN⟩
    · simp only [hlen, if_false] at h
      injection h with h2
      subst h2
      intro q hq
      simp only [List.map_cons, List.map_nil, List.mem_cons,
        List.not_mem_nil, or_false] at hq
      rcases hq with rfl | rfl | rfl | rfl
      · exact ⟨"reduced_load_profile", by simp [artifactNames], eL⟩
      · exact ⟨"reduced_resource_profile", by simp [artifactNames], eR⟩
      · exact ⟨"all_gens", by simp [artifactNames], eA⟩
      · exact ⟨"new_gen", by simp [artifactNames], eN⟩

/-- C8 counterexample: on the settings path "a.yml/b.yml" (a '.yml' in a
directory name) Python's replace substitutes every occurrence, so the code
produces "a_/b_all_gens.csv" while replacing only the extension per the
claim would give "a.yml/b_all_gens.csv". -/
theorem c8_counterexample :
    outputPath "a.yml/b.yml" "all_gens" = "a_/b_all_gens.csv" ∧
    specOutputPath "a.yml/b.yml" "all_gens" = "a.yml/b_all_gens.csv" ∧
    outputPath "a.yml/b.yml" "all_gens" ≠ specOutputPath "a.yml/b.yml" "all_gens" := by
  refine ⟨rfl, rfl, ?_⟩
  decide

/-- C8 amended: the code replaces every occurrence of '.yml' in the settings
path by '_' and appends <artifact>.csv; for every settings path of the form
stem + '.yml' whose stem has no other '.yml' occurrence this yields
<stem>_<artifact>.csv for each of the five artifacts. -/
theorem c8_amended_output_paths (stem art : String)
    (hno : hasSub stem ".yml" = false)
    (_hart : art ∈ artifactNames) :
    outputPath (stem ++ ".yml") art = stem ++ "_" ++ art ++ ".csv" := by
  unfold outputPath
  rw [filePfx_stem stem hno]
  refine str_data_ext _ _ ?_
  simp

end PGNB

namespace PGNB

/-- A row whose keys all lie in cols reads none at any column outside
cols. -/
theorem get_none_of_keys_subset (r : Row) (cols : List String)
    (hk : ∀ p ∈ r, p.1 ∈ cols) (c : String) (hc : c ∉ cols) :
    Row.get r c = none := by
  induction r with
  | nil => rfl
  | cons p t ih =>
    obtain ⟨pk, pv⟩ := p
    have hpk : pk ∈ cols := hk (pk, pv) (List.mem_cons_self _ _)
    have hb : (c == pk) = false := by
      simp only [beq_eq_false_iff_ne]
      intro hq
      exact hc (hq ▸ hpk)
    unfold Row.get
    rw [List.lookup_cons]
    rw [hb]
    exact ih (fun p hp => hk p (List.mem_cons_of_mem _ hp))

/-- Concrete start-year generator table used by the witnesses: a coal row
with operating_year 0 and a hydro row with operating_year NaN. -/
def wAG : DF :=
  ⟨["Resource", "region", "cluster", "operating_year"],
   [[("Resource", some (Value.vStr "coal")), ("region", some (Value.vStr "PJM")),
     ("cluster", some (Value.vInt 0)), ("operating_year", some (Value.vInt 0))],
    [("Resource", some (Value.vStr "hydro")), ("region", some (Value.vStr "CA")),
     ("cluster", some (Value.vInt 2)), ("operating_year", none)]]⟩

/-- Concrete new-generator table used by the witnesses, with one column
(Max_Cap_MW) that the start-year table does not have. -/
def wNG : DF :=
  ⟨["Resource", "region", "cluster", "operating_year", "Max_Cap_MW"],
   [[("Resource", some (Value.vStr "wind")), ("region", some (Value.vStr "PJM")),
     ("cluster", some (Value.vInt 1)), ("operating_year", some (Value.vInt 2030)),
     ("Max_Cap_MW", some (Value.vInt 500))]]⟩

/-- The cell-7 result on the witness tables. -/
def wRes : DF := (cell7 wAG wNG 2025).getD emptyDF

/-- The witness start-year table after the key construction. -/
def wAGT : DF := (addTech wAG).getD emptyDF

theorem c1_witness :
    Row.get (wRes.rows.headD []) "operating_year" ≠ none ∧
    Row.get (wRes.rows.headD []) "operating_year" ≠ some (Value.vInt 0) :=
  c1_operating_year_populated wAG wNG 2025 (by decide) wRes rfl
    (wRes.rows.headD []) (by decide)

theorem c4_witness :
    wRes.cols = wAGT.cols ∧ "Resource" ∈ wRes.cols ∧ "Max_Cap_MW" ∉ wRes.cols := by
  have h := c4_column_restriction wAG wNG 2025 wRes wAGT rfl rfl
  exact ⟨h.1, h.2.1 "Resource" (by decide), h.2.2 "Max_Cap_MW" (by decide) (by decide)⟩

theorem c9_witness :
    Row.get ((wRes.rows.drop wAG.rows.length).headD []) "tech" = none := by
  have hWFw : ∀ r ∈ wNG.rows, ∀ c, c ∉ wNG.cols → Row.get r c = none := by
    intro r hr c hc
    refine get_none_of_keys_subset r wNG.cols ?_ c hc
    intro p hp
    simp only [wNG, List.mem_cons, List.not_mem_nil, or_false] at hr
    subst hr
    simp only [List.mem_cons, List.not_mem_nil, or_false] at hp
    rcases hp with rfl | rfl | rfl | rfl | rfl <;> decide
  have h := c9_new_gen_null_tech wAG wNG 2025 wRes hWFw (by decide) (by decide) rfl
  exact h.2 _ (by decide)

/-- Concrete table with a NaN cluster value for the C10 witness. -/
def c10BadDF : DF :=
  ⟨["Resource", "region", "cluster"],
   [[("Resource", some (Value.vStr "x")), ("region", some (Value.vStr "y")),
     ("cluster", none)]]⟩

theorem c10_witness : addTech c10BadDF = none :=
  (c10_cluster_convertible c10BadDF).2
    ⟨[("Resource", some (Value.vStr "x")), ("region", some (Value.vStr "y")),
      ("cluster", none)], by decide, rfl⟩

/-- The key construction on the counterexample table succeeds. -/
def c7cexRes : DF := (addTech c7cexDF).getD emptyDF

theorem c7_amended_witness :
    (c7cexRes.rows[0]?.map (fun rq => Row.get rq "tech"))
      = some (some (Value.vStr ("a" ++ "-" ++ "b" ++ "-" ++ toString (1 : Int)))) := by
  obtain ⟨rq, h1, h2⟩ := c7_amended_tech_key c7cexDF c7cexRes rfl 0
    [("Resource", some (Value.vStr "a")), ("region", some (Value.vStr "b")),
     ("cluster", some (Value.vInt 1))]
    rfl "a" "b" 1 rfl rfl rfl
  rw [h1]
  simp [h2]

theorem c8_amended_witness :
    outputPath ("US_National/US_N_settings" ++ ".yml") "all_gens"
      = "US_National/US_N_settings" ++ "_" ++ "all_gens" ++ ".csv" :=
  c8_amended_output_paths "US_National/US_N_settings" "all_gens"
    (by decide) (by decide)

/-- Concrete external services for the pipeline witnesses. -/
def wExt : Externals :=
  { create_new_generators := fun _ _ =>
      ⟨["Resource", "region", "cluster"],
       [[("Resource", some (Value.vStr "wind")), ("region", some (Value.vStr "PJM")),
         ("cluster", some (Value.vInt 1))]]⟩,
    create_all_generators := fun _ _ => wAG,
    make_final_load_curves := fun _ _ => emptyDF,
    add_misc_gen_values := fun df => df,
    make_generator_variability := fun df => df,
    reduce_time_domain := fun gv lc => (gv, lc, emptyDF),
    agg_transmission_constraints := emptyDF,
    load_ipm_shapefile := emptyDF,
    transmission_line_distance := fun t _ => t,
    network_line_loss := fun t => t,
    network_reinforcement_cost := fun t => t,
    network_max_reinforcement := fun t => t }

/-- Concrete settings for the pipeline witnesses: two region aggregations,
periods 2025 and 2030, scenario p6. -/
def wSettings : Settings := ⟨["r1", "r2"], [2025, 2030], "p6"⟩

/-- The notebook's hard-coded settings path. -/
def wPath : String := "US_National/US_N_settings.yml"

/-- The fresh run's output on the witness inputs. -/
def wOut : PipelineOut :=
  (runFresh wExt wSettings wPath []).getD ⟨emptyDF, emptyDF, emptyDF, emptyDF, none, [], []⟩

theorem c2_witness :
    ((filePfx wPath ++ "transmission.csv") ∈ wOut.writes.map Prod.fst ↔
      wSettings.region_aggregations.length > 1) ∧
    (wSettings.region_aggregations.length ≤ 1 → wOut.transmission = none) :=
  c2_transmission_written_iff wExt wSettings wPath [] wOut rfl

theorem c3_witness :
    runReload wSettings wPath wOut.fs =
      some ⟨wOut.reduced_load_profile, wOut.reduced_resource_profile,
            wOut.all_gens, wOut.new_gen, wOut.transmission⟩ :=
  c3_reload_reproduces_fresh wExt wSettings wPath [] wOut rfl

theorem c5_witness :
    Row.get (wOut.new_gen.rows.headD []) "operating_year"
      = some (Value.vInt 2030) := by
  have h := c5_new_gen_tagged_periods wExt wSettings wPath [] wOut rfl
    (fun df => rfl)
  exact (h.2 rfl).1 (wOut.new_gen.rows.headD []) (by decide)

theorem c6_witness :
    wOut.transmission =
      some (wExt.network_max_reinforcement
        (wExt.network_reinforcement_cost
          (wExt.network_line_loss
            (wExt.transmission_line_distance
              wExt.agg_transmission_constraints
              wExt.load_ipm_shapefile)))) ∧
    wOut.fs.lookup (filePfx wPath ++ "transmission.csv") = wOut.transmission ∧
    (filePfx wPath ++ "transmission.csv", wExt.network_max_reinforcement
        (wExt.network_reinforcement_cost
          (wExt.network_line_loss
            (wExt.transmission_line_distance
              wExt.agg_transmission_constraints
              wExt.load_ipm_shapefile)))) ∈ wOut.writes :=
  c6_transmission_pipeline wExt wSettings wPath [] wOut rfl (by decide)

end PGNB
